import Mathlib

/-!
Verification of the Google Sheets sync subsystem of TeamPulse
(src/backend/app/services/google_sheets_sync_service.py) against its
natural-language specification.

The service code is translated function by function into executable Lean
definitions.  Database entities that the service manipulates through an ORM
(CachedSchedule, SyncLog) are not part of the provided sources; where their
behaviour matters it is modelled from the specification and marked as such in
the doc comment of the corresponding definition.
-/

namespace TeamPulse

/-! ## Python string primitives

The service manipulates Python strings via strip(), upper(), lower(),
the in operator (substring test) and split.  These are modelled over the
character list of a Lean string; Python's ASCII whitespace class is used for
strip(), matching CPython for the ASCII and CJK data this service sees. -/

def pyIsSpace (c : Char) : Bool :=
  c == ' ' || c == '\t' || c == '\n' || c == '\r' || c == '\x0b' || c == '\x0c'

def pyStripList (l : List Char) : List Char :=
  ((l.dropWhile pyIsSpace).reverse.dropWhile pyIsSpace).reverse

/-- Python str.strip(). -/
def pyStrip (s : String) : String := String.mk (pyStripList s.data)

/-- Python str.upper() (ASCII case mapping; CJK characters are caseless). -/
def pyUpper (s : String) : String := String.mk (s.data.map Char.toUpper)

/-- Python str.lower() (ASCII case mapping). -/
def pyLower (s : String) : String := String.mk (s.data.map Char.toLower)

def startsWithL : List Char → List Char → Bool
  | [], _ => true
  | _ :: _, [] => false
  | a :: as, b :: bs => a == b && startsWithL as bs

def hasSubL (needle : List Char) : List Char → Bool
  | [] => needle.isEmpty
  | c :: rest => startsWithL needle (c :: rest) || hasSubL needle rest

/-- Python substring membership test: needle in hay. -/
def pyIn (needle hay : String) : Bool := hasSubL needle.data hay.data

def splitOnSlashAux : List Char → List Char → List String
  | acc, [] => [String.mk acc.reverse]
  | acc, c :: rest =>
    if c == '/' then String.mk acc.reverse :: splitOnSlashAux [] rest
    else splitOnSlashAux (c :: acc) rest

/-- Python str.split on a slash separator. -/
def pySplitSlash (s : String) : List String := splitOnSlashAux [] s.data

/-! ## Dates

parse_date in the service tries a prioritized list of datetime.strptime
formats, then a regex search, then an ISO fallback.  Dates are represented as
plain year/month/day triples validated the way datetime validates them. -/

structure HDate where
  year : Nat
  month : Nat
  day : Nat
  deriving DecidableEq, Repr

def isLeapYear (y : Nat) : Bool :=
  y % 4 == 0 && (y % 100 != 0 || y % 400 == 0)

def daysInMonth (y m : Nat) : Nat :=
  if m == 2 then (if isLeapYear y then 29 else 28)
  else if m == 4 || m == 6 || m == 9 || m == 11 then 30
  else 31

/-- Validity check performed by the datetime constructor. -/
def mkValidDate (y m d : Nat) : Option HDate :=
  if 1 ≤ y && y ≤ 9999 && 1 ≤ m && m ≤ 12 && 1 ≤ d && d ≤ daysInMonth y m then
    some ⟨y, m, d⟩
  else none

def digitVal (c : Char) : Nat := c.toNat - '0'.toNat

/-- Consume exactly n leading digits, returning their value and the rest. -/
def takeDigitsAux : Nat → Nat → List Char → Option (Nat × List Char)
  | 0, acc, rest => some (acc, rest)
  | _ + 1, _, [] => none
  | n + 1, acc, c :: rest =>
    if c.isDigit then takeDigitsAux n (acc * 10 + digitVal c) rest else none

def take4 (l : List Char) : Option (Nat × List Char) := takeDigitsAux 4 0 l

/-- Candidate parses of a one-or-two digit group, greedy first (the order in
which a backtracking matcher for a 1-to-2-digit group tries them). -/
def take2or1 : List Char → List (Nat × List Char)
  | c1 :: c2 :: rest =>
    if c1.isDigit && c2.isDigit then
      [(digitVal c1 * 10 + digitVal c2, rest), (digitVal c1, c2 :: rest)]
    else if c1.isDigit then [(digitVal c1, c2 :: rest)]
    else []
  | [c1] => if c1.isDigit then [(digitVal c1, [])] else []
  | [] => []

def firstSome {α β : Type} (f : α → Option β) : List α → Option β
  | [] => none
  | a :: as =>
    match f a with
    | some b => some b
    | none => firstSome f as

def expectChar (c : Char) : List Char → Option (List Char)
  | [] => none
  | x :: rest => if x == c then some rest else none

/-- strptime with format year-sep-month-sep-day matched against the whole
string (4-digit year, 1-or-2-digit month and day). -/
def parseYmdFull (sep : Char) (l : List Char) : Option (Nat × Nat × Nat) :=
  match take4 l with
  | none => none
  | some (y, r1) =>
    match expectChar sep r1 with
    | none => none
    | some r2 =>
      firstSome (fun mc =>
        match expectChar sep mc.2 with
        | none => none
        | some r3 =>
          firstSome (fun dc => if dc.2.isEmpty then some (y, mc.1, dc.1) else none)
            (take2or1 r3))
        (take2or1 r2)

/-- strptime with format month/day/year matched against the whole string. -/
def parseMdyFull (l : List Char) : Option (Nat × Nat × Nat) :=
  firstSome (fun mc =>
    match expectChar '/' mc.2 with
    | none => none
    | some r2 =>
      firstSome (fun dc =>
        match expectChar '/' dc.2 with
        | none => none
        | some r3 =>
          match take4 r3 with
          | some (y, []) => some (y, mc.1, dc.1)
          | _ => none)
        (take2or1 r2))
    (take2or1 l)

/-- strptime with the CJK year/month/day format matched against the whole
string. -/
def parseCjkFull (l : List Char) : Option (Nat × Nat × Nat) :=
  match take4 l with
  | none => none
  | some (y, r1) =>
    match expectChar '年' r1 with
    | none => none
    | some r2 =>
      firstSome (fun mc =>
        match expectChar '月' mc.2 with
        | none => none
        | some r3 =>
          firstSome (fun dc =>
            match expectChar '日' dc.2 with
            | some [] => some (y, mc.1, dc.1)
            | _ => none)
            (take2or1 r3))
        (take2or1 r2)

def isDateSep (c : Char) : Bool := c == '/' || c == '-'

/-- One anchored attempt of the regex 4-digits sep 1-2-digits sep 1-2-digits
(greedy groups with backtracking, as re module semantics dictate). -/
def matchRegexAt (l : List Char) : Option (Nat × Nat × Nat) :=
  match take4 l with
  | none => none
  | some (y, r1) =>
    match r1 with
    | [] => none
    | s1 :: r2 =>
      if isDateSep s1 then
        firstSome (fun mc =>
          match mc.2 with
          | [] => none
          | s2 :: r3 =>
            if isDateSep s2 then
              firstSome (fun dc => some (y, mc.1, dc.1)) (take2or1 r3)
            else none)
          (take2or1 r2)
      else none

/-- re.search: leftmost match of the date regex anywhere in the string. -/
def searchYMD : List Char → Option (Nat × Nat × Nat)
  | [] => none
  | c :: rest =>
    match matchRegexAt (c :: rest) with
    | some r => some r
    | none => searchYMD rest

def tryFormat (p : List Char → Option (Nat × Nat × Nat)) (ds : List Char) :
    Option HDate :=
  match p ds with
  | some (y, m, d) => mkValidDate y m d
  | none => none

/-- datetime.fromisoformat after replacing slashes with dashes, restricted to
the basic YYYY-MM-DD form; every such string is already accepted by the first
strptime format or the regex search, so this fallback is reachable only
redundantly. -/
def isoFallback (ds : List Char) : Option HDate :=
  let l := ds.map (fun c => if c == '/' then '-' else c)
  match l with
  | [y1, y2, y3, y4, s1, m1, m2, s2, d1, d2] =>
    if y1.isDigit && y2.isDigit && y3.isDigit && y4.isDigit && s1 == '-' &&
        m1.isDigit && m2.isDigit && s2 == '-' && d1.isDigit && d2.isDigit then
      mkValidDate
        (digitVal y1 * 1000 + digitVal y2 * 100 + digitVal y3 * 10 + digitVal y4)
        (digitVal m1 * 10 + digitVal m2)
        (digitVal d1 * 10 + digitVal d2)
    else none
  | _ => none

/-- Translation of the service method parse_date: reject empty input, strip,
try the four strptime formats in order (an out-of-range date raises inside
strptime and falls through to the next format), then the regex search with a
datetime validity check, then the ISO fallback. -/
def parse_date (date_str : String) : Option HDate :=
  if date_str = "" then none
  else
    let ds := (pyStrip date_str).data
    match tryFormat (parseYmdFull '-') ds with
    | some dt => some dt
    | none =>
      match tryFormat (parseYmdFull '/') ds with
      | some dt => some dt
      | none =>
        match tryFormat parseMdyFull ds with
        | some dt => some dt
        | none =>
          match tryFormat parseCjkFull ds with
          | some dt => some dt
          | none =>
            match searchYMD ds with
            | some (y, m, d) =>
              match mkValidDate y m d with
              | some dt => some dt
              | none => isoFallback ds
            | none => isoFallback ds

/-! ## Shift normalization -/

def offLabels : List String := ["OFF", "休", "休假", "NULL", ""]

def complexShiftKeywords : List String :=
  ["櫃台", "二線", "藥局", "人力", "COUNTER", "DESK", "PHARMACY"]

/-- Translation of the service method normalize_shift_type. -/
def normalize_shift_type (shift_value : String) : String :=
  if shift_value = "" then "OFF"
  else
    let shift_upper := pyStrip (pyUpper shift_value)
    if offLabels.contains shift_upper || shift_upper == "" then "OFF"
    else if complexShiftKeywords.any (fun k => pyIn k shift_upper) then "D"
    else if ["E", "EVENING", "小夜"].contains shift_upper then "E"
    else if ["N", "NIGHT", "大夜"].contains shift_upper then "N"
    else if ["D", "DAY", "白班"].contains shift_upper then "D"
    else if shift_upper.length == 1 && ["D", "E", "N"].contains shift_upper then
      shift_upper
    else "D"

/-- Translation of the service method get_time_range (a literal dict lookup
with default). -/
def get_time_range (shift_type : String) : String :=
  if shift_type == "D" then "08:00 - 16:00"
  else if shift_type == "E" then "16:00 - 00:00"
  else if shift_type == "N" then "00:00 - 08:00"
  else if shift_type == "OFF" then "--"
  else "--"

/-! ## Cache entries

The CachedSchedule entity itself is not among the provided sources; its shape
is fixed by the constructor call in the service and by the specification. -/

/-- A cached schedule row, with exactly the fields the service passes to the
CachedSchedule constructor. -/
structure CacheEntry where
  schedule_def_id : String
  user_id : String
  date : HDate
  shift_type : String
  time_range : String
  deriving DecidableEq, Repr

/-- Composite key equality on cache entries.  Modelled from the spec:
CacheEntry has composite key (user id, target id, date) with at most one
entry per key. -/
def sameKey (a b : CacheEntry) : Bool :=
  a.schedule_def_id == b.schedule_def_id && a.user_id == b.user_id &&
    decide (a.date = b.date)

/-- Modelled from the spec: db.session.merge is an upsert by the composite
key of CacheEntry. -/
def mergeEntry (c : List CacheEntry) (e : CacheEntry) : List CacheEntry :=
  if c.any (sameKey e) then c.map (fun x => if sameKey e x then e else x)
  else c ++ [e]

/-- Modelled from the spec: CachedSchedule.clear_user_schedule deletes every
existing entry for the given (user, target) pair, the delete half of the
whole-set replacement of section 4.1. -/
def clearUser (c : List CacheEntry) (user_id sid : String) : List CacheEntry :=
  c.filter (fun e => !(e.schedule_def_id == sid && e.user_id == user_id))

/-! ## Sync ledger

The SyncLog entity is not among the provided sources; its methods are
modelled from the specification of the Sync Ledger (section 4.2). -/

structure Ticket where
  schedule_def_id : String
  tenant_id : String
  sync_type : String
  triggered_by : Option String
  started_at : Nat
  completed_at : Option Nat
  status : String
  rows_synced : Nat
  users_synced : Nat
  error_message : Option String
  deriving DecidableEq, Repr

/-- Modelled from the spec: SyncLog.create_sync_log opens a pending ticket
with started_at = now. -/
def createTicket (sid tenant sync_type : String) (triggered_by : Option String)
    (now : Nat) : Ticket :=
  ⟨sid, tenant, sync_type, triggered_by, now, none, "pending", 0, 0, none⟩

/-- Modelled from the spec: SyncLog.mark_completed finalizes a ticket, status
success iff the error is absent. -/
def markCompleted (t : Ticket) (now rows users : Nat) (e : Option String) :
    Ticket :=
  { t with
    completed_at := some now
    status := if e.isNone then "success" else "failed"
    rows_synced := rows
    users_synced := users
    error_message := e }

/-- Modelled from the spec: SyncLog.should_sync is true when no successfully
completed ticket for the target lies inside the freshness window. -/
def shouldSync (ledger : List Ticket) (sid : String) (min_minutes now : Nat) :
    Bool :=
  !(ledger.any (fun t =>
    t.schedule_def_id == sid && t.status == "success" &&
      (match t.completed_at with
       | some c => decide (now < c + min_minutes)
       | none => false)))

/-! ## Remote snapshot shape and employee mappings -/

/-- One body row of the snapshot: a dict from column name to cell value,
where a none cell models a present key holding Python None. -/
abbrev Row := List (String × Option String)

/-- Python row.get(col, the empty string): a missing key yields the empty
string, a key present with value None yields none. -/
def rowGet (row : Row) (k : String) : Option String :=
  match row.find? (fun p => p.1 == k) with
  | some p => p.2
  | none => some ""

structure FinalOutput where
  success : Bool
  data : List Row
  columns : List String

/-- The dictionary returned by fetch_schedule_data, restricted to the keys
the sync service reads. -/
structure SheetsData where
  success : Bool
  error : Option String
  final_output : Option FinalOutput

/-- An EmployeeMapping record, with exactly the fields the service reads
(the entity class is not among the provided sources). -/
structure EmployeeMapping where
  schedule_def_id : String
  is_active : Bool
  sheets_identifier : String
  sheets_name_id : Option String
  userID : String

/-- Assignment into a Python dict: an existing key keeps its position and
gets the new value, a new key is appended. -/
def dictInsert (d : List (String × String)) (k v : String) :
    List (String × String) :=
  if d.any (fun p => p.1 == k) then
    d.map (fun p => if p.1 == k then (k, v) else p)
  else d ++ [(k, v)]

/-- One iteration of the identifier_to_user construction loop: the raw
sheets_identifier, then (when truthy) the full sheets_name_id, then its
slash-separated parts when a slash is present. -/
def insertMapping (d : List (String × String)) (m : EmployeeMapping) :
    List (String × String) :=
  let d1 := dictInsert d m.sheets_identifier m.userID
  match m.sheets_name_id with
  | none => d1
  | some nid =>
    if nid = "" then d1
    else
      let d2 := dictInsert d1 nid m.userID
      if pyIn "/" nid then
        (pySplitSlash nid).foldl
          (fun acc part =>
            if pyStrip part ≠ "" then dictInsert acc (pyStrip part) m.userID
            else acc)
          d2
      else d2

def buildIdentifierMap (ms : List EmployeeMapping) : List (String × String) :=
  ms.foldl insertMapping []

/-- Exact dict lookup (identifier_str in identifier_to_user). -/
def lookupExact (d : List (String × String)) (k : String) : Option String :=
  match d.find? (fun p => p.1 == k) with
  | some p => some p.2
  | none => none

/-- The partial-match loop: first link whose key contains the identifier or
is contained in it, in dict iteration order. -/
def substrMatch (d : List (String × String)) (ident : String) : Option String :=
  match d.find? (fun p => pyIn ident p.1 || pyIn p.1 ident) with
  | some p => some p.2
  | none => none

/-- Identifier resolution in the row loop: exact match first, then the
partial-match fallback. -/
def resolveIdentifier (d : List (String × String)) (ident : String) :
    Option String :=
  match lookupExact d ident with
  | some u => some u
  | none => substrMatch d ident

/-- The fixed, ordered list of acceptable identifier column names. -/
def identifierCandidates : List String :=
  ["員工(姓名/ID)", "員工姓名/ID", "員工", "username", "employee_id", "name"]

/-- First candidate present in the header row. -/
def findIdentifierColumn (cols : List String) : Option String :=
  identifierCandidates.find? (fun c => cols.contains c)

/-! ## Storing a snapshot (the service method store_schedule_data) -/

/-- Row-identifier extraction and resolution: row.get of the identifier
column, a falsy value skips the row, otherwise the stripped string is
resolved against the identifier map. -/
def resolveRowUser (idmap : List (String × String)) (ic : String) (row : Row) :
    Option String :=
  match rowGet row ic with
  | none => none
  | some s => if s == "" then none else resolveIdentifier idmap (pyStrip s)

structure StoreAcc where
  cache : List CacheEntry
  rows : Nat
  users : List String
  deriving Repr

/-- synced_users is a set; adding keeps the first occurrence. -/
def addUser (us : List String) (u : String) : List String :=
  if us.contains u then us else us ++ [u]

/-- The CachedSchedule row built for one cell. -/
def mkEntry (sid uid : String) (d : HDate) (shift_value : String) : CacheEntry :=
  let st := normalize_shift_type shift_value
  ⟨sid, uid, d, st, get_time_range st⟩

/-- Body of the per-date-column loop: parse the column header as a date,
fetch the cell, skip empty and NULL cells, otherwise merge the normalized
entry and count it. -/
def processDateCol (sid uid : String) (row : Row)
    (s : List CacheEntry × Nat) (col : String) : List CacheEntry × Nat :=
  match parse_date col with
  | none => s
  | some d =>
    match rowGet row col with
    | none => s
    | some v0 =>
      let v := pyStrip v0
      if v == "" || pyUpper v == "NULL" then s
      else (mergeEntry s.1 (mkEntry sid uid d v), s.2 + 1)

/-- Body of the per-row loop: resolve the identifier, record the user, clear
the user's cached entries, then process every non-identifier column. -/
def processRow (sid : String) (idmap : List (String × String)) (ic : String)
    (columns : List String) (acc : StoreAcc) (row : Row) : StoreAcc :=
  match resolveRowUser idmap ic row with
  | none => acc
  | some uid =>
    let users := addUser acc.users uid
    let date_columns := columns.filter (fun c => !(c == ic))
    let res := date_columns.foldl (processDateCol sid uid row)
      (clearUser acc.cache uid sid, acc.rows)
    ⟨res.1, res.2, users⟩

/-- The EmployeeMapping query: active mappings of the given schedule. -/
def activeMappings (mappings : List EmployeeMapping) (sid : String) :
    List EmployeeMapping :=
  mappings.filter (fun m => m.schedule_def_id == sid && m.is_active)

/-- Translation of the service method store_schedule_data: guard the final
output sheet, build the identifier map from the active employee mappings of
the schedule, locate the identifier column, then fold the row loop.  Returns
the updated cache with rows_synced and the synced-users set. -/
def storeScheduleData (cache : List CacheEntry) (sid : String)
    (mappings : List EmployeeMapping) (sheets_data : SheetsData) : StoreAcc :=
  match sheets_data.final_output with
  | none => ⟨cache, 0, []⟩
  | some fo =>
    if !fo.success then ⟨cache, 0, []⟩
    else if fo.data.isEmpty || fo.columns.isEmpty then ⟨cache, 0, []⟩
    else
      let idmap := buildIdentifierMap (activeMappings mappings sid)
      match findIdentifierColumn fo.columns with
      | none => ⟨cache, 0, []⟩
      | some ic => fo.data.foldl (processRow sid idmap ic fo.columns) ⟨cache, 0, []⟩

/-! ## Fetch with bounded retry -/

/-- One call of the remote fetcher either returns a result dictionary or
raises an exception with a message. -/
inductive FetchOutcome where
  | ok (sd : SheetsData)
  | exc (msg : String)

/-- The rate-limit test applied to an error value in a returned result. -/
def isRateLimitResultError (error : String) : Bool :=
  pyIn "429" error || pyIn "quota" (pyLower error) ||
    pyIn "rate limit" (pyLower error)

/-- The rate-limit test applied to a raised exception message (this branch
does not look for the rate limit phrase). -/
def isRateLimitExcMsg (msg : String) : Bool :=
  pyIn "429" msg || pyIn "quota" (pyLower msg)

def exhaustedData : SheetsData :=
  ⟨false, some "Failed to fetch after retries", none⟩

def excData (msg : String) : SheetsData := ⟨false, some msg, none⟩

/-- Translation of the service method fetch_with_retry.  The remote call is
abstracted by an oracle from attempt number to outcome; the second component
accumulates the backoff sleeps performed, in order.  The first argument of
the recursion is the number of loop iterations remaining (the for loop runs
at most max_retries iterations); callers start it at max_retries with
attempt 0, and the loop fall-through result is produced when it reaches
zero. -/
def fetchWithRetryGo (oracle : Nat → FetchOutcome) (max_retries : Nat)
    (initial_delay : Rat) : Nat → Nat → List Rat → SheetsData × List Rat
  | 0, _, sleeps => (exhaustedData, sleeps)
  | fuel + 1, attempt, sleeps =>
    match oracle attempt with
    | .ok sd =>
      if sd.success then (sd, sleeps)
      else
        let error := sd.error.getD ""
        if isRateLimitResultError error then
          if attempt < max_retries - 1 then
            fetchWithRetryGo oracle max_retries initial_delay fuel (attempt + 1)
              (sleeps ++ [initial_delay * 2 ^ attempt])
          else (sd, sleeps)
        else (sd, sleeps)
    | .exc msg =>
      if attempt < max_retries - 1 && isRateLimitExcMsg msg then
        fetchWithRetryGo oracle max_retries initial_delay fuel (attempt + 1)
          (sleeps ++ [initial_delay * 2 ^ attempt])
      else (excData msg, sleeps)

/-- fetch_with_retry with its default arguments max_retries = 3 and
initial_delay = 2.0 seconds. -/
def fetch_with_retry (oracle : Nat → FetchOutcome) : SheetsData × List Rat :=
  fetchWithRetryGo oracle 3 2 3 0 []

/-! ## The orchestrator (the service method sync_schedule_data) -/

/-- A ScheduleDefinition record, with exactly the fields the service reads. -/
structure ScheduleDefinition where
  scheduleDefID : String
  tenantID : String

/-- The database state the sync touches: schedule definitions and employee
mappings (read), the schedule cache and the sync ledger (written), and a
clock value used for ticket timestamps and freshness. -/
structure SyncState where
  defs : List ScheduleDefinition
  mappings : List EmployeeMapping
  cache : List CacheEntry
  ledger : List Ticket
  now : Nat

/-- The result dictionary of sync_schedule_data, restricted to the keys the
claims are about; a missing key is none. -/
structure SyncResult where
  success : Bool
  skipped : Bool
  rows_synced : Option Nat
  users_synced : Option Nat
  error : Option String
  deriving DecidableEq, Repr

def mkFailRes (e : String) : SyncResult := ⟨false, false, none, none, some e⟩

def mkSkipRes : SyncResult := ⟨true, true, none, none, none⟩

def mkOkRes (rows users : Nat) : SyncResult :=
  ⟨true, false, some rows, some users, none⟩

/-- Translation of the service method sync_schedule_data: look up the
schedule definition, apply the freshness debounce unless forced, open a
ticket, fetch with retry, on fetch failure finalize the ticket with zero
counts and the error, otherwise store the snapshot and finalize with the
counts.  The remote call is abstracted by the oracle. -/
def sync_schedule_data (st : SyncState) (oracle : Nat → FetchOutcome)
    (schedule_def_id sync_type : String) (triggered_by : Option String)
    (force : Bool) : SyncState × SyncResult :=
  match st.defs.find? (fun d => d.scheduleDefID == schedule_def_id) with
  | none =>
    (st, mkFailRes ("Schedule definition not found: " ++ schedule_def_id))
  | some sdef =>
    if !force && !(shouldSync st.ledger schedule_def_id 10 st.now) then
      (st, mkSkipRes)
    else
      let t0 := createTicket schedule_def_id sdef.tenantID sync_type
        triggered_by st.now
      let sheets_data := (fetch_with_retry oracle).1
      if !sheets_data.success then
        let errMsg := sheets_data.error.getD "Unknown error"
        ({ st with
            ledger := st.ledger ++ [markCompleted t0 st.now 0 0 (some errMsg)] },
          mkFailRes errMsg)
      else
        let res := storeScheduleData st.cache schedule_def_id st.mappings
          sheets_data
        ({ st with
            cache := res.cache
            ledger := st.ledger ++
              [markCompleted t0 st.now res.rows res.users.length none] },
          mkOkRes res.rows res.users.length)

/-! ## Derived notions used by the statements below -/

/-- The state a successful non-skipped sync leaves behind, given the result
of the store step. -/
def syncOkState (st : SyncState) (sid ty : String) (tb : Option String)
    (sdef : ScheduleDefinition) (R : StoreAcc) : SyncState :=
  { st with
    cache := R.cache
    ledger := st.ledger ++
      [markCompleted (createTicket sid sdef.tenantID ty tb st.now) st.now
        R.rows R.users.length none] }

/-- The state a fetch-failed sync leaves behind. -/
def syncFailState (st : SyncState) (sid ty : String) (tb : Option String)
    (sdef : ScheduleDefinition) (msg : String) : SyncState :=
  { st with
    ledger := st.ledger ++
      [markCompleted (createTicket sid sdef.tenantID ty tb st.now) st.now 0 0
        (some msg)] }

/-- Membership test on a list of user ids, in the orientation of the filter
predicate of clearUser. -/
def memB (S : List String) (x : String) : Bool := S.any (fun y => x == y)

/-- Deleting the entries of a set of users for one target. -/
def clearUsers (sid : String) (S : List String) (c : List CacheEntry) :
    List CacheEntry :=
  c.filter (fun e => !(e.schedule_def_id == sid && memB S e.user_id))

/-- The cache entries served for one (user, target), the selection of the
cache read path. -/
def getUserEntries (sid uid : String) (c : List CacheEntry) : List CacheEntry :=
  c.filter (fun e => e.schedule_def_id == sid && e.user_id == uid)

/-- The entry list the per-date-column loop derives from one body row,
starting from an empty staging area. -/
def rowBlock (sid uid ic : String) (columns : List String) (row : Row) :
    List CacheEntry :=
  ((columns.filter (fun c => !(c == ic))).foldl (processDateCol sid uid row)
    ([], 0)).1

/-- The number of cells of one body row that produce a cache entry write. -/
def rowCount (sid uid ic : String) (columns : List String) (row : Row) : Nat :=
  ((columns.filter (fun c => !(c == ic))).foldl (processDateCol sid uid row)
    ([], 0)).2

/-- The users resolved from a list of body rows, in row order with
multiplicity. -/
def resolvedUsers (idmap : List (String × String)) (ic : String)
    (rows : List Row) : List String :=
  rows.filterMap (resolveRowUser idmap ic)

/-- An entry belongs to one (user, target). -/
def entryOK (sid uid : String) (e : CacheEntry) : Prop :=
  e.schedule_def_id = sid ∧ e.user_id = uid

/-- The cache fragment the row loop leaves behind for a list of rows,
independent of the starting cache: each resolved row contributes its block,
minus whatever a later row for the same user clears again. -/
def blocksOf (sid : String) (idmap : List (String × String)) (ic : String)
    (columns : List String) : List Row → List CacheEntry
  | [] => []
  | r :: rest =>
    match resolveRowUser idmap ic r with
    | none => blocksOf sid idmap ic columns rest
    | some u =>
      clearUsers sid (resolvedUsers idmap ic rest)
        (rowBlock sid u ic columns r) ++ blocksOf sid idmap ic columns rest

/-- The total number of entry writes the row loop performs for a list of
rows. -/
def countsOf (sid : String) (idmap : List (String × String)) (ic : String)
    (columns : List String) : List Row → Nat
  | [] => 0
  | r :: rest =>
    (match resolveRowUser idmap ic r with
     | none => 0
     | some u => rowCount sid u ic columns r) +
      countsOf sid idmap ic columns rest

/-! ## Structure lemmas about the store loop -/

theorem memB_nil (x : String) : memB [] x = false := rfl

theorem memB_cons (u : String) (S : List String) (x : String) :
    memB (u :: S) x = ((x == u) || memB S x) := by
  simp [memB, List.any_cons]

theorem mem_mergeEntry {c : List CacheEntry} {e x : CacheEntry}
    (hx : x ∈ mergeEntry c e) : x ∈ c ∨ x = e := by
  unfold mergeEntry at hx
  by_cases h : c.any (sameKey e) = true
  · simp only [h, if_true] at hx
    rcases List.mem_map.mp hx with ⟨y, hy, hxy⟩
    by_cases hk : sameKey e y = true
    · simp [hk] at hxy; exact Or.inr hxy.symm
    · simp [hk] at hxy; exact Or.inl (hxy ▸ hy)
  · simp only [h, if_false] at hx
    rcases List.mem_append.mp hx with h1 | h1
    · exact Or.inl h1
    · exact Or.inr (List.mem_singleton.mp h1)

theorem sameKey_false_of_notUser {sid uid : String} {e x : CacheEntry}
    (he : entryOK sid uid e)
    (hx : (!(x.schedule_def_id == sid && x.user_id == uid)) = true) :
    sameKey e x = false := by
  rcases he with ⟨h1, h2⟩
  simp only [Bool.not_eq_true', Bool.and_eq_false_iff, beq_eq_false_iff_ne] at hx
  simp only [sameKey, h1, h2, Bool.and_eq_false_iff, beq_eq_false_iff_ne]
  tauto

theorem mergeEntry_append_left {c b : List CacheEntry} {e : CacheEntry}
    (h : ∀ x ∈ c, sameKey e x = false) :
    mergeEntry (c ++ b) e = c ++ mergeEntry b e := by
  unfold mergeEntry
  have hca : c.any (sameKey e) = false := by
    rw [List.any_eq_false]; intro x hx; simp [h x hx]
  rw [List.any_append, hca, Bool.false_or]
  by_cases hb : b.any (sameKey e) = true
  · simp only [hb, if_true, List.map_append]
    congr 1
    have : List.map (fun x => if sameKey e x = true then e else x) c =
        List.map id c :=
      List.map_congr_left (fun x hx => by simp [h x hx])
    rw [this, List.map_id]
  · simp only [hb, if_false] at *
    simp [List.append_assoc]

theorem processDateCol_step (sid uid : String) (row : Row) (col : String) :
    (∀ s, processDateCol sid uid row s col = s) ∨
    (∃ d v0, parse_date col = some d ∧ rowGet row col = some v0 ∧
      ∀ s, processDateCol sid uid row s col =
        (mergeEntry s.1 (mkEntry sid uid d (pyStrip v0)), s.2 + 1)) := by
  rcases hp : parse_date col with _ | d
  · exact Or.inl (fun s => by simp [processDateCol, hp])
  · rcases hg : rowGet row col with _ | v0
    · exact Or.inl (fun s => by simp [processDateCol, hp, hg])
    · by_cases hv : (pyStrip v0 == "" || pyUpper (pyStrip v0) == "NULL") = true
      · refine Or.inl (fun s => ?_)
        simp only [processDateCol, hp, hg]
        rw [if_pos hv]
      · refine Or.inr ⟨d, v0, rfl, rfl, fun s => ?_⟩
        simp only [processDateCol, hp, hg]
        rw [if_neg (by simp [hv])]

theorem mkEntry_ok (sid uid : String) (d : HDate) (v : String) :
    entryOK sid uid (mkEntry sid uid d v) := ⟨rfl, rfl⟩

theorem mergeEntry_pure {sid uid : String} {b : List CacheEntry}
    {e : CacheEntry} (hb : ∀ x ∈ b, entryOK sid uid x)
    (he : entryOK sid uid e) : ∀ x ∈ mergeEntry b e, entryOK sid uid x :=
  fun x hx => (mem_mergeEntry hx).elim (hb x) (fun hxe => hxe ▸ he)

theorem colsFold_cache_append {sid uid : String} {row : Row} :
    ∀ (cols : List String) (c b : List CacheEntry) (n m : Nat),
    (∀ x ∈ c, (!(x.schedule_def_id == sid && x.user_id == uid)) = true) →
    (∀ e ∈ b, entryOK sid uid e) →
    (cols.foldl (processDateCol sid uid row) (c ++ b, n)).1 =
      c ++ (cols.foldl (processDateCol sid uid row) (b, m)).1 := by
  intro cols
  induction cols with
  | nil => intro c b n m _ _; simp
  | cons col cs ih =>
    intro c b n m hc hb
    rw [List.foldl_cons, List.foldl_cons]
    rcases processDateCol_step sid uid row col with h | ⟨d, v0, _, _, h⟩
    · rw [h, h]; exact ih c b n m hc hb
    · rw [h, h]
      dsimp only
      have hkey : ∀ x ∈ c, sameKey (mkEntry sid uid d (pyStrip v0)) x = false :=
        fun x hx => sameKey_false_of_notUser (mkEntry_ok sid uid d (pyStrip v0))
          (hc x hx)
      rw [mergeEntry_append_left hkey]
      exact ih c (mergeEntry b (mkEntry sid uid d (pyStrip v0))) (n + 1) (m + 1)
        hc (mergeEntry_pure hb (mkEntry_ok sid uid d (pyStrip v0)))

theorem colsFold_cache_clean {sid uid : String} {row : Row}
    (cols : List String) (c : List CacheEntry) (n : Nat)
    (hc : ∀ x ∈ c, (!(x.schedule_def_id == sid && x.user_id == uid)) = true) :
    (cols.foldl (processDateCol sid uid row) (c, n)).1 =
      c ++ (cols.foldl (processDateCol sid uid row) ([], 0)).1 := by
  have h := @colsFold_cache_append sid uid row cols c [] n 0 hc
    (by intro e he; cases he)
  simpa using h

theorem colsFold_count {sid uid : String} {row : Row} :
    ∀ (cols : List String) (x y : List CacheEntry) (n : Nat),
    (cols.foldl (processDateCol sid uid row) (x, n)).2 =
      n + (cols.foldl (processDateCol sid uid row) (y, 0)).2 := by
  intro cols
  induction cols with
  | nil => intro x y n; simp
  | cons col cs ih =>
    intro x y n
    rw [List.foldl_cons, List.foldl_cons]
    rcases processDateCol_step sid uid row col with h | ⟨d, v0, _, _, h⟩
    · rw [h, h]; exact ih x y n
    · rw [h, h]
      dsimp only
      rw [ih (mergeEntry x (mkEntry sid uid d (pyStrip v0))) y (n + 1),
        ih (mergeEntry y (mkEntry sid uid d (pyStrip v0))) y 1]
      omega

theorem rowBlock_pure (sid uid ic : String) (columns : List String) (row : Row) :
    ∀ e ∈ rowBlock sid uid ic columns row, entryOK sid uid e := by
  have base : ∀ e ∈ (([], 0) : List CacheEntry × Nat).1, entryOK sid uid e := by
    intro e he; cases he
  suffices h : ∀ (cols : List String) (s : List CacheEntry × Nat),
      (∀ e ∈ s.1, entryOK sid uid e) →
      ∀ e ∈ (cols.foldl (processDateCol sid uid row) s).1, entryOK sid uid e by
    exact h _ _ base
  intro cols
  induction cols with
  | nil => intro s hs; exact hs
  | cons col cs ih =>
    intro s hs
    rw [List.foldl_cons]
    rcases processDateCol_step sid uid row col with h | ⟨d, v0, _, _, h⟩
    · rw [h]; exact ih s hs
    · rw [h]
      exact ih _ (mergeEntry_pure hs (mkEntry_ok sid uid d (pyStrip v0)))

theorem processRow_unresolved {sid : String} {idmap : List (String × String)}
    {ic : String} {columns : List String} {acc : StoreAcc} {row : Row}
    (hres : resolveRowUser idmap ic row = none) :
    processRow sid idmap ic columns acc row = acc := by
  unfold processRow
  rw [hres]

theorem processRow_resolved {sid : String} {idmap : List (String × String)}
    {ic : String} {columns : List String} {acc : StoreAcc} {row : Row}
    {uid : String} (hres : resolveRowUser idmap ic row = some uid) :
    processRow sid idmap ic columns acc row =
      ⟨clearUser acc.cache uid sid ++ rowBlock sid uid ic columns row,
        acc.rows + rowCount sid uid ic columns row,
        addUser acc.users uid⟩ := by
  unfold processRow
  rw [hres]
  dsimp only
  have hc : ∀ x ∈ clearUser acc.cache uid sid,
      (!(x.schedule_def_id == sid && x.user_id == uid)) = true := by
    intro x hx
    exact (List.mem_filter.mp hx).2
  rw [StoreAcc.mk.injEq]
  refine ⟨?_, ?_, rfl⟩
  · rw [colsFold_cache_clean _ _ _ hc]
    rfl
  · rw [colsFold_count _ _ ([] : List CacheEntry) acc.rows]
    rfl

theorem resolvedUsers_cons_none {idmap : List (String × String)} {ic : String}
    {r : Row} {rows : List Row} (hres : resolveRowUser idmap ic r = none) :
    resolvedUsers idmap ic (r :: rows) = resolvedUsers idmap ic rows := by
  simp [resolvedUsers, List.filterMap_cons, hres]

theorem resolvedUsers_cons_some {idmap : List (String × String)} {ic : String}
    {r : Row} {rows : List Row} {u : String}
    (hres : resolveRowUser idmap ic r = some u) :
    resolvedUsers idmap ic (r :: rows) = u :: resolvedUsers idmap ic rows := by
  simp [resolvedUsers, List.filterMap_cons, hres]

theorem clearUsers_nil (sid : String) (c : List CacheEntry) :
    clearUsers sid [] c = c := by
  apply List.filter_eq_self.mpr
  intro a _
  simp [memB_nil]

theorem clearUsers_append (sid : String) (S : List String)
    (c b : List CacheEntry) :
    clearUsers sid S (c ++ b) = clearUsers sid S c ++ clearUsers sid S b :=
  List.filter_append _ _

theorem bool_clear_merge (A B C : Bool) :
    ((!(A && C)) && (!(A && B))) = (!(A && (B || C))) := by
  cases A <;> cases B <;> cases C <;> rfl

theorem clearUsers_clearUser (sid u : String) (S : List String)
    (c : List CacheEntry) :
    clearUsers sid S (clearUser c u sid) = clearUsers sid (u :: S) c := by
  unfold clearUsers clearUser
  rw [List.filter_filter]
  apply List.filter_congr
  intro x _
  rw [memB_cons]
  exact bool_clear_merge (x.schedule_def_id == sid) (x.user_id == u)
    (memB S x.user_id)

theorem loop_cache (sid : String) (idmap : List (String × String))
    (ic : String) (columns : List String) :
    ∀ (rows : List Row) (acc : StoreAcc),
    (rows.foldl (processRow sid idmap ic columns) acc).cache =
      clearUsers sid (resolvedUsers idmap ic rows) acc.cache ++
        blocksOf sid idmap ic columns rows := by
  intro rows
  induction rows with
  | nil =>
    intro acc
    simp [resolvedUsers, clearUsers_nil, blocksOf]
  | cons r rest ih =>
    intro acc
    rw [List.foldl_cons]
    rcases hres : resolveRowUser idmap ic r with _ | u
    · rw [processRow_unresolved hres, resolvedUsers_cons_none hres, ih]
      simp only [blocksOf, hres]
    · rw [processRow_resolved hres, ih]
      simp only [blocksOf, hres, resolvedUsers_cons_some hres]
      rw [clearUsers_append, clearUsers_clearUser, List.append_assoc]

theorem loop_count (sid : String) (idmap : List (String × String))
    (ic : String) (columns : List String) :
    ∀ (rows : List Row) (acc : StoreAcc),
    (rows.foldl (processRow sid idmap ic columns) acc).rows =
      acc.rows + countsOf sid idmap ic columns rows := by
  intro rows
  induction rows with
  | nil => intro acc; simp [countsOf]
  | cons r rest ih =>
    intro acc
    rw [List.foldl_cons]
    rcases hres : resolveRowUser idmap ic r with _ | u
    · rw [processRow_unresolved hres, ih]
      simp only [countsOf, hres]
      omega
    · rw [processRow_resolved hres, ih]
      simp only [countsOf, hres]
      omega

theorem loop_users (sid : String) (idmap : List (String × String))
    (ic : String) (columns : List String) :
    ∀ (rows : List Row) (acc : StoreAcc),
    (rows.foldl (processRow sid idmap ic columns) acc).users =
      (resolvedUsers idmap ic rows).foldl addUser acc.users := by
  intro rows
  induction rows with
  | nil => intro acc; simp [resolvedUsers]
  | cons r rest ih =>
    intro acc
    rw [List.foldl_cons]
    rcases hres : resolveRowUser idmap ic r with _ | u
    · rw [processRow_unresolved hres, resolvedUsers_cons_none hres, ih]
    · rw [processRow_resolved hres, resolvedUsers_cons_some hres, ih,
        List.foldl_cons]

theorem blocksOf_pure (sid : String) (idmap : List (String × String))
    (ic : String) (columns : List String) :
    ∀ (rows : List Row), ∀ e ∈ blocksOf sid idmap ic columns rows,
      e.schedule_def_id = sid ∧
        memB (resolvedUsers idmap ic rows) e.user_id = true := by
  intro rows
  induction rows with
  | nil => intro e he; cases he
  | cons r rest ih =>
    intro e he
    rcases hres : resolveRowUser idmap ic r with _ | u
    · simp only [blocksOf, hres] at he
      rcases ih e he with ⟨h1, h2⟩
      rw [resolvedUsers_cons_none hres]
      exact ⟨h1, h2⟩
    · simp only [blocksOf, hres] at he
      rw [resolvedUsers_cons_some hres]
      rcases List.mem_append.mp he with h | h
      · have hb := List.mem_filter.mp h
        rcases rowBlock_pure sid u ic columns r e hb.1 with ⟨h1, h2⟩
        refine ⟨h1, ?_⟩
        rw [memB_cons, h2]
        simp
      · rcases ih e h with ⟨h1, h2⟩
        refine ⟨h1, ?_⟩
        rw [memB_cons, h2]
        simp

/-! ## Unfolding lemmas for the store, the fetch and the orchestrator -/

theorem store_guard_failed (cache : List CacheEntry) (sid : String)
    (ms : List EmployeeMapping) (sd : SheetsData) (fo : FinalOutput)
    (hfo : sd.final_output = some fo) (hsu : fo.success = true)
    (hdata : fo.data ≠ []) (hcols : fo.columns ≠ [])
    (hic : findIdentifierColumn fo.columns = none) :
    storeScheduleData cache sid ms sd = ⟨cache, 0, []⟩ := by
  unfold storeScheduleData
  rw [hfo]
  have h1 : (!fo.success) = false := by simp [hsu]
  have h2 : (fo.data.isEmpty || fo.columns.isEmpty) = false := by
    simp [List.isEmpty_iff, hdata, hcols]
  simp only [h1, h2, Bool.false_eq_true, if_false, hic]

theorem store_main (cache : List CacheEntry) (sid : String)
    (ms : List EmployeeMapping) (sd : SheetsData) (fo : FinalOutput)
    (ic : String) (hfo : sd.final_output = some fo) (hsu : fo.success = true)
    (hdata : fo.data ≠ []) (hcols : fo.columns ≠ [])
    (hic : findIdentifierColumn fo.columns = some ic) :
    storeScheduleData cache sid ms sd =
      fo.data.foldl
        (processRow sid (buildIdentifierMap (activeMappings ms sid)) ic
          fo.columns) ⟨cache, 0, []⟩ := by
  unfold storeScheduleData
  rw [hfo]
  have h1 : (!fo.success) = false := by simp [hsu]
  have h2 : (fo.data.isEmpty || fo.columns.isEmpty) = false := by
    simp [List.isEmpty_iff, hdata, hcols]
  simp only [h1, h2, Bool.false_eq_true, if_false, hic]

theorem fetch_first_success {oracle : Nat → FetchOutcome} {sd : SheetsData}
    (h : oracle 0 = .ok sd) (hs : sd.success = true) :
    fetch_with_retry oracle = (sd, []) := by
  unfold fetch_with_retry fetchWithRetryGo
  rw [h]
  simp [hs]

theorem sync_no_def (st : SyncState) (oracle : Nat → FetchOutcome)
    (sid ty : String) (tb : Option String) (force : Bool)
    (h : st.defs.find? (fun d => d.scheduleDefID == sid) = none) :
    sync_schedule_data st oracle sid ty tb force =
      (st, mkFailRes ("Schedule definition not found: " ++ sid)) := by
  unfold sync_schedule_data
  rw [h]

theorem sync_skip (st : SyncState) (oracle : Nat → FetchOutcome)
    (sid ty : String) (tb : Option String) (sdef : ScheduleDefinition)
    (hdef : st.defs.find? (fun d => d.scheduleDefID == sid) = some sdef)
    (hfresh : shouldSync st.ledger sid 10 st.now = false) :
    sync_schedule_data st oracle sid ty tb false = (st, mkSkipRes) := by
  unfold sync_schedule_data
  rw [hdef]
  dsimp only
  rw [if_pos (by simp [hfresh])]

theorem sync_fetch_fail (st : SyncState) (oracle : Nat → FetchOutcome)
    (sid ty : String) (tb : Option String) (force : Bool)
    (sdef : ScheduleDefinition)
    (hdef : st.defs.find? (fun d => d.scheduleDefID == sid) = some sdef)
    (hwake : force = true ∨ shouldSync st.ledger sid 10 st.now = true)
    (hfail : (fetch_with_retry oracle).1.success = false) :
    sync_schedule_data st oracle sid ty tb force =
      (syncFailState st sid ty tb sdef
          ((fetch_with_retry oracle).1.error.getD "Unknown error"),
        mkFailRes ((fetch_with_retry oracle).1.error.getD "Unknown error")) := by
  unfold sync_schedule_data
  rw [hdef]
  dsimp only
  rw [if_neg (by rcases hwake with h | h <;> simp [h])]
  rw [if_pos (by simp [hfail])]
  rfl

theorem sync_store_success (st : SyncState) (oracle : Nat → FetchOutcome)
    (sid ty : String) (tb : Option String) (force : Bool)
    (sdef : ScheduleDefinition)
    (hdef : st.defs.find? (fun d => d.scheduleDefID == sid) = some sdef)
    (hwake : force = true ∨ shouldSync st.ledger sid 10 st.now = true)
    (hok : (fetch_with_retry oracle).1.success = true) :
    sync_schedule_data st oracle sid ty tb force =
      (syncOkState st sid ty tb sdef
          (storeScheduleData st.cache sid st.mappings
            (fetch_with_retry oracle).1),
        mkOkRes
          (storeScheduleData st.cache sid st.mappings
            (fetch_with_retry oracle).1).rows
          (storeScheduleData st.cache sid st.mappings
            (fetch_with_retry oracle).1).users.length) := by
  unfold sync_schedule_data
  rw [hdef]
  dsimp only
  rw [if_neg (by rcases hwake with h | h <;> simp [h])]
  rw [if_neg (by simp [hok])]
  rfl

/-! ## Full replacement and idempotence lemmas -/

theorem memB_of_mem {l : List String} {a : String} (h : a ∈ l) :
    memB l a = true := by
  rw [memB, List.any_eq_true]
  exact ⟨a, h, by simp⟩

theorem getU_append (sid uid : String) (a b : List CacheEntry) :
    getUserEntries sid uid (a ++ b) =
      getUserEntries sid uid a ++ getUserEntries sid uid b :=
  List.filter_append _ _

theorem getU_clearUsers {sid uid : String} {S : List String}
    (c : List CacheEntry) (huid : memB S uid = true) :
    getUserEntries sid uid (clearUsers sid S c) = [] := by
  rw [getUserEntries, List.filter_eq_nil_iff]
  intro x hx
  rcases List.mem_filter.mp hx with ⟨_, hpred⟩
  intro hcon
  rw [Bool.and_eq_true, beq_iff_eq, beq_iff_eq] at hcon
  rcases hcon with ⟨h1, h2⟩
  rw [Bool.not_eq_true', Bool.and_eq_false_iff] at hpred
  rcases hpred with h | h
  · rw [beq_eq_false_iff_ne] at h; exact h h1
  · rw [h2, huid] at h; cases h

theorem getU_pure {sid uid : String} {b : List CacheEntry}
    (hb : ∀ e ∈ b, entryOK sid uid e) : getUserEntries sid uid b = b := by
  apply List.filter_eq_self.mpr
  intro a ha
  rcases hb a ha with ⟨h1, h2⟩
  simp [h1, h2]

theorem clearUsers_pure_not_mem {sid uid : String} {S : List String}
    {b : List CacheEntry} (hb : ∀ e ∈ b, entryOK sid uid e)
    (h : memB S uid = false) : clearUsers sid S b = b := by
  apply List.filter_eq_self.mpr
  intro a ha
  rcases hb a ha with ⟨_, h2⟩
  simp [h2, h]

theorem getU_blocksOf_not_mem {sid uid : String}
    {idmap : List (String × String)} {ic : String} {columns : List String}
    {rows : List Row}
    (h : memB (resolvedUsers idmap ic rows) uid = false) :
    getUserEntries sid uid (blocksOf sid idmap ic columns rows) = [] := by
  rw [getUserEntries, List.filter_eq_nil_iff]
  intro x hx
  rcases blocksOf_pure sid idmap ic columns rows x hx with ⟨_, h2⟩
  intro hcon
  rw [Bool.and_eq_true, beq_iff_eq, beq_iff_eq] at hcon
  rw [hcon.2, h] at h2
  cases h2

theorem getU_blocksOf_middle (sid : String) (idmap : List (String × String))
    (ic : String) (columns : List String) (uid : String) :
    ∀ (pre : List Row) (r : Row) (post : List Row),
    resolveRowUser idmap ic r = some uid →
    memB (resolvedUsers idmap ic post) uid = false →
    getUserEntries sid uid (blocksOf sid idmap ic columns (pre ++ r :: post)) =
      rowBlock sid uid ic columns r := by
  intro pre
  induction pre with
  | nil =>
    intro r post hres hpost
    rw [List.nil_append]
    simp only [blocksOf, hres]
    rw [getU_append,
      clearUsers_pure_not_mem (rowBlock_pure sid uid ic columns r) hpost,
      getU_pure (rowBlock_pure sid uid ic columns r),
      getU_blocksOf_not_mem hpost, List.append_nil]
  | cons q pre' ih =>
    intro r post hres hpost
    rw [List.cons_append]
    rcases hq : resolveRowUser idmap ic q with _ | w
    · simp only [blocksOf, hq]
      exact ih r post hres hpost
    · simp only [blocksOf, hq]
      rw [getU_append, ih r post hres hpost]
      have huid : memB (resolvedUsers idmap ic (pre' ++ r :: post)) uid = true := by
        apply memB_of_mem
        rw [resolvedUsers]
        exact List.mem_filterMap.mpr
          ⟨r, List.mem_append_right _ (List.mem_cons_self r post), hres⟩
      rw [getU_clearUsers _ huid, List.nil_append]

theorem clearUsers_idem (sid : String) (S : List String) (c : List CacheEntry) :
    clearUsers sid S (clearUsers sid S c) = clearUsers sid S c := by
  unfold clearUsers
  rw [List.filter_filter]
  apply List.filter_congr
  intro x _
  rw [Bool.and_self]

theorem clearUsers_blocksOf (sid : String) (idmap : List (String × String))
    (ic : String) (columns : List String) (rows : List Row) :
    clearUsers sid (resolvedUsers idmap ic rows)
      (blocksOf sid idmap ic columns rows) = [] := by
  rw [clearUsers, List.filter_eq_nil_iff]
  intro x hx
  rcases blocksOf_pure sid idmap ic columns rows x hx with ⟨h1, h2⟩
  simp [h1, h2]

theorem storeAcc_ext {x y : StoreAcc} (hc : x.cache = y.cache)
    (hr : x.rows = y.rows) (hu : x.users = y.users) : x = y := by
  cases x
  cases y
  simp_all

theorem store_shape (sid : String) (ms : List EmployeeMapping)
    (sd : SheetsData) :
    (∀ c, storeScheduleData c sid ms sd = ⟨c, 0, []⟩) ∨
    (∃ fo ic, sd.final_output = some fo ∧ fo.success = true ∧
      fo.data ≠ [] ∧ fo.columns ≠ [] ∧
      findIdentifierColumn fo.columns = some ic) := by
  rcases hfo : sd.final_output with _ | fo
  · left; intro c; simp [storeScheduleData, hfo]
  · by_cases hsu : fo.success = true
    · by_cases hdata : fo.data = []
      · left; intro c; simp [storeScheduleData, hfo, hdata]
      · by_cases hcols : fo.columns = []
        · left; intro c; simp [storeScheduleData, hfo, hcols]
        · rcases hic : findIdentifierColumn fo.columns with _ | ic
          · left
            intro c
            exact store_guard_failed c sid ms sd fo hfo hsu hdata hcols hic
          · right; exact ⟨fo, ic, rfl, hsu, hdata, hcols, hic⟩
    · left
      intro c
      have hs : fo.success = false := by
        revert hsu; cases fo.success <;> simp
      simp [storeScheduleData, hfo, hs]

theorem store_idem (cache : List CacheEntry) (sid : String)
    (ms : List EmployeeMapping) (sd : SheetsData) :
    storeScheduleData (storeScheduleData cache sid ms sd).cache sid ms sd =
      storeScheduleData cache sid ms sd := by
  rcases store_shape sid ms sd with h | ⟨fo, ic, hfo, hsu, hdata, hcols, hic⟩
  · rw [h cache]
    exact h _
  · rw [store_main _ _ _ _ _ _ hfo hsu hdata hcols hic,
      store_main _ _ _ _ _ _ hfo hsu hdata hcols hic]
    apply storeAcc_ext
    · rw [loop_cache, loop_cache]
      dsimp only
      rw [clearUsers_append, clearUsers_idem, clearUsers_blocksOf,
        List.append_nil]
    · rw [loop_count, loop_count]
    · rw [loop_users, loop_users]

theorem bool_false_of_not_true {b : Bool} (h : ¬ b = true) : b = false := by
  revert h
  cases b <;> simp

/-- Shape of every failing sync invocation: the cache is untouched, and
either the target was unknown (state fully unchanged, no ticket) or exactly
one finalized failed ticket with zero counts and the error message was
appended to the ledger. -/
theorem sync_failure_shape (st : SyncState) (oracle : Nat → FetchOutcome)
    (sid ty : String) (tb : Option String) (force : Bool)
    (h : (sync_schedule_data st oracle sid ty tb force).2.success = false) :
    (sync_schedule_data st oracle sid ty tb force).1.cache = st.cache ∧
    ((st.defs.find? (fun d => d.scheduleDefID == sid) = none ∧
        (sync_schedule_data st oracle sid ty tb force).1 = st) ∨
      ∃ t, (sync_schedule_data st oracle sid ty tb force).1.ledger =
          st.ledger ++ [t] ∧ t.status = "failed" ∧
          t.completed_at = some st.now ∧ t.rows_synced = 0 ∧
          t.users_synced = 0 ∧
          t.error_message =
            (sync_schedule_data st oracle sid ty tb force).2.error) := by
  rcases hdef : st.defs.find? (fun d => d.scheduleDefID == sid) with _ | sdef
  · rw [sync_no_def st oracle sid ty tb force hdef]
    exact ⟨rfl, Or.inl ⟨hdef, rfl⟩⟩
  · by_cases hwake : force = true ∨ shouldSync st.ledger sid 10 st.now = true
    · by_cases hfs : (fetch_with_retry oracle).1.success = true
      · rw [sync_store_success st oracle sid ty tb force sdef hdef hwake hfs]
          at h
        simp [mkOkRes] at h
      · have hfail := bool_false_of_not_true hfs
        rw [sync_fetch_fail st oracle sid ty tb force sdef hdef hwake hfail]
        exact ⟨rfl, Or.inr ⟨_, rfl, rfl, rfl, rfl, rfl, rfl⟩⟩
    · have hf : force = false := by
        cases hfc : force
        · rfl
        · exact absurd (Or.inl hfc) hwake
      have hs : shouldSync st.ledger sid 10 st.now = false := by
        cases hsc : shouldSync st.ledger sid 10 st.now
        · rfl
        · exact absurd (Or.inr hsc) hwake
      subst hf
      rw [sync_skip st oracle sid ty tb sdef hdef hs] at h
      simp [mkSkipRes] at h

/-! ## The claims -/

/-- C6: if a sync attempt fails (the returned result has success = false),
the previously cached schedule entries — for every user of the target — are
exactly as they were before the attempt; only the ledger reflects the
failure. -/
theorem C6_failure_keeps_cache (st : SyncState) (oracle : Nat → FetchOutcome)
    (sid ty : String) (tb : Option String) (force : Bool)
    (h : (sync_schedule_data st oracle sid ty tb force).2.success = false) :
    (sync_schedule_data st oracle sid ty tb force).1.cache = st.cache :=
  (sync_failure_shape st oracle sid ty tb force h).1

/-- Witness for C6 at a concrete failing invocation (unknown target). -/
theorem C6_failure_keeps_cache_witness :
    (sync_schedule_data ⟨[], [], [], [], 0⟩ (fun _ => FetchOutcome.exc "x")
      "S9" "auto" none true).1.cache = ([] : List CacheEntry) :=
  C6_failure_keeps_cache ⟨[], [], [], [], 0⟩ (fun _ => FetchOutcome.exc "x")
    "S9" "auto" none true rfl

/-- C3 counterexample: a sync for a nonexistent target returns a structured
failure, but nothing about it is captured into the Ledger — no ticket is
created at all, contradicting the claim that every terminal state, including
a nonexistent target, is captured into the Ledger. -/
theorem C3_no_propagation_cex :
    (sync_schedule_data ⟨[], [], [], [], 7⟩ (fun _ => FetchOutcome.exc "boom")
      "S1" "auto" none true).2.success = false ∧
    (sync_schedule_data ⟨[], [], [], [], 7⟩ (fun _ => FetchOutcome.exc "boom")
      "S1" "auto" none true).1.ledger = [] :=
  ⟨rfl, rfl⟩

/-- C3 amended: sync always returns a structured result and never mutates the
cache on failure; a failure for a nonexistent target returns a structured
error without creating a ledger ticket, while every other failure is
finalized into the Ledger as exactly one completed failed ticket with
rows = 0, users = 0 and the error message of the returned result. -/
theorem C3_no_propagation_amended (st : SyncState)
    (oracle : Nat → FetchOutcome) (sid ty : String) (tb : Option String)
    (force : Bool)
    (h : (sync_schedule_data st oracle sid ty tb force).2.success = false) :
    (sync_schedule_data st oracle sid ty tb force).1.cache = st.cache ∧
    ((st.defs.find? (fun d => d.scheduleDefID == sid) = none ∧
        (sync_schedule_data st oracle sid ty tb force).1 = st) ∨
      ∃ t, (sync_schedule_data st oracle sid ty tb force).1.ledger =
          st.ledger ++ [t] ∧ t.status = "failed" ∧
          t.completed_at = some st.now ∧ t.rows_synced = 0 ∧
          t.users_synced = 0 ∧
          t.error_message =
            (sync_schedule_data st oracle sid ty tb force).2.error) :=
  sync_failure_shape st oracle sid ty tb force h

/-- Witness for the amended C3 at a concrete failing invocation. -/
theorem C3_no_propagation_amended_witness :
    (sync_schedule_data ⟨[], [], [], [], 7⟩ (fun _ => FetchOutcome.exc "boom")
      "S1" "auto" none true).1.cache = ([] : List CacheEntry) :=
  (C3_no_propagation_amended ⟨[], [], [], [], 7⟩
    (fun _ => FetchOutcome.exc "boom") "S1" "auto" none true rfl).1

/-- C7: exact identifier matches take precedence over substring matches for
every identifier map and raw identifier; the substring scan (in either
direction, in dict iteration order) is consulted only when no exact key
matches; in particular E04 resolves to user-004 in the presence of the link
E0 to user-099 in either dict order, while E04 against the single link E0
falls back to the substring match. -/
theorem C7_resolution_precedence :
    (∀ (d : List (String × String)) (ident u : String),
      lookupExact d ident = some u → resolveIdentifier d ident = some u) ∧
    (∀ (d : List (String × String)) (ident : String),
      lookupExact d ident = none →
        resolveIdentifier d ident = substrMatch d ident) ∧
    resolveIdentifier [("E04", "user-004"), ("E0", "user-099")] "E04" =
      some "user-004" ∧
    resolveIdentifier [("E0", "user-099"), ("E04", "user-004")] "E04" =
      some "user-004" ∧
    resolveIdentifier [("E0", "user-099")] "E04" = some "user-099" := by
  refine ⟨?_, ?_, rfl, rfl, rfl⟩
  · intro d ident u h
    unfold resolveIdentifier
    rw [h]
  · intro d ident h
    unfold resolveIdentifier
    rw [h]

/-- Witness for C7 at a concrete exact match. -/
theorem C7_resolution_precedence_witness :
    resolveIdentifier [("E04", "user-004")] "E04" = some "user-004" :=
  C7_resolution_precedence.1 [("E04", "user-004")] "E04" "user-004" rfl

/-- C2 counterexample: two syncs whose snapshots differ only in the raw
free-text shift label of one cell (two different labels normalizing to the
same code) produce byte-identical cache states, so the raw label is not
preserved in the cache and cannot be recovered from it. -/
theorem C2_raw_label_cex :
    storeScheduleData [] "S1" [⟨"S1", true, "E01", none, "u1"⟩]
        ⟨true, none, some ⟨true,
          [[("員工", some "E01"), ("2025-11-01", some "A 櫃台人力")]],
          ["員工", "2025-11-01"]⟩⟩ =
      storeScheduleData [] "S1" [⟨"S1", true, "E01", none, "u1"⟩]
        ⟨true, none, some ⟨true,
          [[("員工", some "E01"), ("2025-11-01", some "B 二線人力")]],
          ["員工", "2025-11-01"]⟩⟩ ∧
    "A 櫃台人力" ≠ "B 二線人力" := by
  refine ⟨rfl, by decide⟩

/-- C2 amended: a stored cache entry carries only the normalized shift code
and the display time range derived from it — not the raw label — so the
entry written for a cell depends on the raw free-text label only through the
normalized code, and two distinct labels with the same normalization are
indistinguishable in the cache. -/
theorem C2_raw_label_amended (sid uid : String) (d : HDate) (v1 v2 : String)
    (h : normalize_shift_type v1 = normalize_shift_type v2) :
    mkEntry sid uid d v1 = mkEntry sid uid d v2 := by
  unfold mkEntry
  rw [h]

/-- Witness for the amended C2: two different complex labels collapse to the
same stored entry. -/
theorem C2_raw_label_amended_witness :
    mkEntry "S1" "u1" ⟨2025, 11, 1⟩ "A 櫃台人力" =
      mkEntry "S1" "u1" ⟨2025, 11, 1⟩ "B 二線人力" :=
  C2_raw_label_amended "S1" "u1" ⟨2025, 11, 1⟩ "A 櫃台人力" "B 二線人力" rfl

/-- C10: a body-row cell that is missing (Python None), or whose stripped
text is empty or equals NULL ignoring case, produces no cache entry and no
row count — the day is simply absent — even though the shift classifier
itself maps exactly those stripped values to OFF. -/
theorem C10_null_cells_absent (sid uid : String) (row : Row) (col : String)
    (s : List CacheEntry × Nat)
    (h : rowGet row col = none ∨
      ∃ v0, rowGet row col = some v0 ∧
        (pyStrip v0 = "" ∨ pyUpper (pyStrip v0) = "NULL")) :
    processDateCol sid uid row s col = s ∧
    (∀ v0 : String, (pyStrip v0 = "" ∨ pyUpper (pyStrip v0) = "NULL") →
      normalize_shift_type (pyStrip v0) = "OFF") := by
  constructor
  · rcases hp : parse_date col with _ | d
    · simp [processDateCol, hp]
    · rcases h with h | ⟨v0, hg, hv⟩
      · simp [processDateCol, hp, h]
      · simp only [processDateCol, hp, hg]
        rw [if_pos]
        rcases hv with hv | hv <;> simp [hv]
  · intro v0 hv
    rcases hv with hv | hv
    · rw [hv]
      rfl
    · by_cases hz : pyStrip v0 = ""
      · rw [hz]
        rfl
      · simp only [normalize_shift_type, if_neg hz, hv]
        rfl

/-- Witness for C10: the cell value holding the word null surrounded by
spaces writes nothing. -/
theorem C10_null_cells_absent_witness :
    processDateCol "S1" "u1" [("2025-11-01", some "  null ")]
      (([], 0) : List CacheEntry × Nat) "2025-11-01" = ([], 0) :=
  (C10_null_cells_absent "S1" "u1" [("2025-11-01", some "  null ")]
    "2025-11-01" ([], 0)
    (Or.inr ⟨"  null ", rfl, Or.inr rfl⟩)).1

/-- C1 counterexample: with a fetched snapshot whose header has no
acceptable identifier column, the sync completes with success = true and a
ledger ticket recording a success with zero rows and no error — not a
schema-drift failure with success = false as claimed. -/
theorem C1_schema_drift_cex :
    (sync_schedule_data ⟨[⟨"S1", "T1"⟩], [], [], [], 0⟩
      (fun _ => FetchOutcome.ok ⟨true, none, some ⟨true,
        [[("foo", some "E01"), ("2025-11-01", some "D")]],
        ["foo", "2025-11-01"]⟩⟩) "S1" "auto" none true).2 = mkOkRes 0 0 ∧
    (sync_schedule_data ⟨[⟨"S1", "T1"⟩], [], [], [], 0⟩
      (fun _ => FetchOutcome.ok ⟨true, none, some ⟨true,
        [[("foo", some "E01"), ("2025-11-01", some "D")]],
        ["foo", "2025-11-01"]⟩⟩) "S1" "auto" none true).1.ledger.map
        Ticket.status = ["success"] ∧
    (sync_schedule_data ⟨[⟨"S1", "T1"⟩], [], [], [], 0⟩
      (fun _ => FetchOutcome.ok ⟨true, none, some ⟨true,
        [[("foo", some "E01"), ("2025-11-01", some "D")]],
        ["foo", "2025-11-01"]⟩⟩) "S1" "auto" none true).1.ledger.map
        Ticket.error_message = [none] :=
  ⟨rfl, rfl, rfl⟩

/-- C1 amended: when the fetched snapshot has a final output sheet whose
header contains none of the acceptable identifier column names, the sync
does not fail: it completes as a success with rows_synced = 0 and
users_synced = 0, leaves the cache untouched, and its ledger ticket is
finalized as a success with zero counts and no error message. -/
theorem C1_schema_drift_amended (st : SyncState) (oracle : Nat → FetchOutcome)
    (sid ty : String) (tb : Option String) (force : Bool)
    (sdef : ScheduleDefinition) (sd : SheetsData) (fo : FinalOutput)
    (hdef : st.defs.find? (fun d => d.scheduleDefID == sid) = some sdef)
    (hwake : force = true ∨ shouldSync st.ledger sid 10 st.now = true)
    (hor : oracle 0 = FetchOutcome.ok sd) (hsu : sd.success = true)
    (hfo : sd.final_output = some fo) (hfosu : fo.success = true)
    (hdata : fo.data ≠ []) (hcols : fo.columns ≠ [])
    (hic : findIdentifierColumn fo.columns = none) :
    (sync_schedule_data st oracle sid ty tb force).2 = mkOkRes 0 0 ∧
    (sync_schedule_data st oracle sid ty tb force).1.cache = st.cache ∧
    (sync_schedule_data st oracle sid ty tb force).1.ledger = st.ledger ++
      [markCompleted (createTicket sid sdef.tenantID ty tb st.now) st.now 0 0
        none] ∧
    (markCompleted (createTicket sid sdef.tenantID ty tb st.now) st.now 0 0
      none).status = "success" ∧
    (markCompleted (createTicket sid sdef.tenantID ty tb st.now) st.now 0 0
      none).error_message = none := by
  have hfr := fetch_first_success hor hsu
  have hfs : (fetch_with_retry oracle).1.success = true := by
    rw [hfr]
    exact hsu
  rw [sync_store_success st oracle sid ty tb force sdef hdef hwake hfs]
  have hst : storeScheduleData st.cache sid st.mappings
      (fetch_with_retry oracle).1 = ⟨st.cache, 0, []⟩ := by
    rw [hfr]
    exact store_guard_failed st.cache sid st.mappings sd fo hfo hfosu hdata
      hcols hic
  rw [hst]
  exact ⟨rfl, rfl, rfl, rfl, rfl⟩

/-- Witness for the amended C1 at the concrete schema-drifted snapshot. -/
theorem C1_schema_drift_amended_witness :
    (sync_schedule_data ⟨[⟨"S1", "T1"⟩], [], [], [], 0⟩
      (fun _ => FetchOutcome.ok ⟨true, none, some ⟨true,
        [[("foo", some "E01"), ("2025-11-01", some "D")]],
        ["foo", "2025-11-01"]⟩⟩) "S1" "manual" none true).2 = mkOkRes 0 0 :=
  (C1_schema_drift_amended ⟨[⟨"S1", "T1"⟩], [], [], [], 0⟩
    (fun _ => FetchOutcome.ok ⟨true, none, some ⟨true,
      [[("foo", some "E01"), ("2025-11-01", some "D")]],
      ["foo", "2025-11-01"]⟩⟩) "S1" "manual" none true ⟨"S1", "T1"⟩
    ⟨true, none, some ⟨true,
      [[("foo", some "E01"), ("2025-11-01", some "D")]],
      ["foo", "2025-11-01"]⟩⟩
    ⟨true, [[("foo", some "E01"), ("2025-11-01", some "D")]],
      ["foo", "2025-11-01"]⟩
    rfl (Or.inl rfl) rfl rfl rfl rfl (by decide) (by decide) rfl).1

/-! ## Step lemmas for the retry loop -/

theorem go_step_fail_rl (oracle : Nat → FetchOutcome) (max_retries : Nat)
    (d : Rat) (fuel attempt : Nat) (sleeps : List Rat) (sd : SheetsData)
    (ho : oracle attempt = FetchOutcome.ok sd) (hf : sd.success = false)
    (hrl : isRateLimitResultError (sd.error.getD "") = true)
    (hlt : attempt < max_retries - 1) :
    fetchWithRetryGo oracle max_retries d (fuel + 1) attempt sleeps =
      fetchWithRetryGo oracle max_retries d fuel (attempt + 1)
        (sleeps ++ [d * 2 ^ attempt]) := by
  unfold fetchWithRetryGo
  rw [ho]
  dsimp only
  rw [if_neg (by simp [hf]), if_pos hrl, if_pos hlt]
  cases fuel <;> rfl

theorem go_step_fail_norl (oracle : Nat → FetchOutcome) (max_retries : Nat)
    (d : Rat) (fuel attempt : Nat) (sleeps : List Rat) (sd : SheetsData)
    (ho : oracle attempt = FetchOutcome.ok sd) (hf : sd.success = false)
    (hrl : isRateLimitResultError (sd.error.getD "") = false) :
    fetchWithRetryGo oracle max_retries d (fuel + 1) attempt sleeps =
      (sd, sleeps) := by
  unfold fetchWithRetryGo
  rw [ho]
  dsimp only
  rw [if_neg (by simp [hf]), if_neg (by simp [hrl])]

theorem go_step_fail_last (oracle : Nat → FetchOutcome) (max_retries : Nat)
    (d : Rat) (fuel attempt : Nat) (sleeps : List Rat) (sd : SheetsData)
    (ho : oracle attempt = FetchOutcome.ok sd) (hf : sd.success = false)
    (hrl : isRateLimitResultError (sd.error.getD "") = true)
    (hge : ¬ attempt < max_retries - 1) :
    fetchWithRetryGo oracle max_retries d (fuel + 1) attempt sleeps =
      (sd, sleeps) := by
  unfold fetchWithRetryGo
  rw [ho]
  dsimp only
  rw [if_neg (by simp [hf]), if_pos hrl, if_neg hge]

/-- C4: in the fetch step a failed fetch result is retried exactly when its
error is rate-limited; the sleep inserted before the retry after attempt k is
initial_delay times 2 to the k; with the default max_retries = 3, a
rate-limited error on all three attempts yields the last failing result after
exactly two backoff sleeps, while a non-rate-limited error returns
immediately with no retry and no sleep. -/
theorem C4_bounded_retry (oracle : Nat → FetchOutcome) (d : Rat)
    (sd0 sd1 sd2 : SheetsData)
    (h0 : oracle 0 = FetchOutcome.ok sd0) (h1 : oracle 1 = FetchOutcome.ok sd1)
    (h2 : oracle 2 = FetchOutcome.ok sd2)
    (hf0 : sd0.success = false) (hf1 : sd1.success = false)
    (hf2 : sd2.success = false) :
    (isRateLimitResultError (sd0.error.getD "") = false →
      fetchWithRetryGo oracle 3 d 3 0 [] = (sd0, [])) ∧
    (isRateLimitResultError (sd0.error.getD "") = true →
      isRateLimitResultError (sd1.error.getD "") = false →
      fetchWithRetryGo oracle 3 d 3 0 [] = (sd1, [d * 2 ^ 0])) ∧
    (isRateLimitResultError (sd0.error.getD "") = true →
      isRateLimitResultError (sd1.error.getD "") = true →
      isRateLimitResultError (sd2.error.getD "") = true →
      fetchWithRetryGo oracle 3 d 3 0 [] = (sd2, [d * 2 ^ 0, d * 2 ^ 1])) := by
  refine ⟨?_, ?_, ?_⟩
  · intro hr0
    show fetchWithRetryGo oracle 3 d (2 + 1) 0 [] = (sd0, [])
    rw [go_step_fail_norl oracle 3 d 2 0 [] sd0 h0 hf0 hr0]
  · intro hr0 hr1
    show fetchWithRetryGo oracle 3 d (2 + 1) 0 [] = (sd1, [d * 2 ^ 0])
    rw [go_step_fail_rl oracle 3 d 2 0 [] sd0 h0 hf0 hr0 (by omega),
      List.nil_append]
    show fetchWithRetryGo oracle 3 d (1 + 1) 1 [d * 2 ^ 0] = (sd1, [d * 2 ^ 0])
    rw [go_step_fail_norl oracle 3 d 1 1 [d * 2 ^ 0] sd1 h1 hf1 hr1]
  · intro hr0 hr1 hr2
    show fetchWithRetryGo oracle 3 d (2 + 1) 0 [] =
      (sd2, [d * 2 ^ 0, d * 2 ^ 1])
    rw [go_step_fail_rl oracle 3 d 2 0 [] sd0 h0 hf0 hr0 (by omega),
      List.nil_append]
    show fetchWithRetryGo oracle 3 d (1 + 1) 1 [d * 2 ^ 0] =
      (sd2, [d * 2 ^ 0, d * 2 ^ 1])
    rw [go_step_fail_rl oracle 3 d 1 1 [d * 2 ^ 0] sd1 h1 hf1 hr1 (by omega)]
    show fetchWithRetryGo oracle 3 d (0 + 1) 2
      ([d * 2 ^ 0] ++ [d * 2 ^ 1]) = (sd2, [d * 2 ^ 0, d * 2 ^ 1])
    rw [go_step_fail_last oracle 3 d 0 2 ([d * 2 ^ 0] ++ [d * 2 ^ 1]) sd2 h2
      hf2 hr2 (by omega)]
    rfl

/-- Witness for C4: three straight 429 quota errors produce the last error
after sleeps of 2 and 4 seconds. -/
theorem C4_bounded_retry_witness :
    fetchWithRetryGo (fun _ => FetchOutcome.ok ⟨false, some "429 quota", none⟩)
      3 2 3 0 [] =
      (⟨false, some "429 quota", none⟩,
        [(2 : Rat) * 2 ^ 0, (2 : Rat) * 2 ^ 1]) :=
  (C4_bounded_retry (fun _ => FetchOutcome.ok ⟨false, some "429 quota", none⟩)
    2 ⟨false, some "429 quota", none⟩ ⟨false, some "429 quota", none⟩
    ⟨false, some "429 quota", none⟩ rfl rfl rfl rfl rfl rfl).2.2 rfl rfl rfl

/-- C9: with force, running sync twice in a row against an unchanged oracle,
unchanged schedule definitions and unchanged identity links produces
identical cache contents after each run and identical rows_synced and
users_synced values both times. -/
theorem C9_sync_idempotent (st : SyncState) (oracle : Nat → FetchOutcome)
    (sid ty : String) (tb : Option String) :
    (sync_schedule_data (sync_schedule_data st oracle sid ty tb true).1 oracle
        sid ty tb true).1.cache =
      (sync_schedule_data st oracle sid ty tb true).1.cache ∧
    (sync_schedule_data (sync_schedule_data st oracle sid ty tb true).1 oracle
        sid ty tb true).2.rows_synced =
      (sync_schedule_data st oracle sid ty tb true).2.rows_synced ∧
    (sync_schedule_data (sync_schedule_data st oracle sid ty tb true).1 oracle
        sid ty tb true).2.users_synced =
      (sync_schedule_data st oracle sid ty tb true).2.users_synced := by
  rcases hdef : st.defs.find? (fun d => d.scheduleDefID == sid) with _ | sdef
  · rw [sync_no_def st oracle sid ty tb true hdef]
    dsimp only
    rw [sync_no_def st oracle sid ty tb true hdef]
    exact ⟨rfl, rfl, rfl⟩
  · by_cases hfs : (fetch_with_retry oracle).1.success = true
    · rw [sync_store_success st oracle sid ty tb true sdef hdef (Or.inl rfl)
        hfs]
      dsimp only
      rw [sync_store_success (syncOkState st sid ty tb sdef
        (storeScheduleData st.cache sid st.mappings (fetch_with_retry oracle).1))
        oracle sid ty tb true sdef hdef (Or.inl rfl) hfs]
      have hid := store_idem st.cache sid st.mappings
        (fetch_with_retry oracle).1
      refine ⟨?_, ?_, ?_⟩ <;> dsimp only [syncOkState] <;> rw [hid]
    · have hfail := bool_false_of_not_true hfs
      rw [sync_fetch_fail st oracle sid ty tb true sdef hdef (Or.inl rfl)
        hfail]
      dsimp only
      rw [sync_fetch_fail (syncFailState st sid ty tb sdef
        ((fetch_with_retry oracle).1.error.getD "Unknown error")) oracle
        sid ty tb true sdef hdef (Or.inl rfl) hfail]
      exact ⟨rfl, rfl, rfl⟩

theorem addUser_singleton_ne {u v : String} (h : u ≠ v) :
    addUser [u] v = [u, v] := by
  unfold addUser
  rw [if_neg]
  · rfl
  · simp
    exact fun hh => h hh.symm

theorem resolvedUsers_nil (idmap : List (String × String)) (ic : String) :
    resolvedUsers idmap ic [] = [] := rfl

theorem countsOf_nil (sid : String) (idmap : List (String × String))
    (ic : String) (columns : List String) :
    countsOf sid idmap ic columns [] = 0 := rfl

theorem countsOf_cons_none {sid : String} {idmap : List (String × String)}
    {ic : String} {columns : List String} {r : Row} {rest : List Row}
    (h : resolveRowUser idmap ic r = none) :
    countsOf sid idmap ic columns (r :: rest) =
      countsOf sid idmap ic columns rest := by
  simp [countsOf, h]

theorem countsOf_cons_some {sid : String} {idmap : List (String × String)}
    {ic : String} {columns : List String} {r : Row} {rest : List Row}
    {u : String} (h : resolveRowUser idmap ic r = some u) :
    countsOf sid idmap ic columns (r :: rest) =
      rowCount sid u ic columns r + countsOf sid idmap ic columns rest := by
  simp [countsOf, h]

/-- C5: after a successful sync, a resolved user's cache entries are exactly
the entry set derived from that user's row of the latest snapshot — the
per-user set is replaced as a whole, never patched — so any date absent from
the snapshot is absent from the cache. -/
theorem C5_full_replacement (st : SyncState) (oracle : Nat → FetchOutcome)
    (sid ty : String) (tb : Option String) (force : Bool)
    (sdef : ScheduleDefinition) (sd : SheetsData) (fo : FinalOutput)
    (ic uid : String) (pre post : List Row) (r : Row)
    (hdef : st.defs.find? (fun d => d.scheduleDefID == sid) = some sdef)
    (hwake : force = true ∨ shouldSync st.ledger sid 10 st.now = true)
    (hor : oracle 0 = FetchOutcome.ok sd) (hsu : sd.success = true)
    (hfo : sd.final_output = some fo) (hfosu : fo.success = true)
    (hic : findIdentifierColumn fo.columns = some ic)
    (hdata : fo.data = pre ++ r :: post)
    (hres : resolveRowUser
      (buildIdentifierMap (activeMappings st.mappings sid)) ic r = some uid)
    (hpost : memB (resolvedUsers
        (buildIdentifierMap (activeMappings st.mappings sid)) ic post) uid =
      false) :
    (sync_schedule_data st oracle sid ty tb force).2.success = true ∧
    getUserEntries sid uid
        (sync_schedule_data st oracle sid ty tb force).1.cache =
      rowBlock sid uid ic fo.columns r := by
  have hfr := fetch_first_success hor hsu
  have hfs : (fetch_with_retry oracle).1.success = true := by
    rw [hfr]
    exact hsu
  rw [sync_store_success st oracle sid ty tb force sdef hdef hwake hfs]
  refine ⟨rfl, ?_⟩
  dsimp only [syncOkState]
  have hdne : fo.data ≠ [] := by
    rw [hdata]
    simp
  have hcne : fo.columns ≠ [] := by
    intro hnil
    rw [hnil] at hic
    rw [show findIdentifierColumn ([] : List String) = none from rfl] at hic
    exact Option.noConfusion hic
  have hst := store_main st.cache sid st.mappings (fetch_with_retry oracle).1
    fo ic (by rw [hfr]; exact hfo) hfosu hdne hcne hic
  rw [hst, hdata, loop_cache, getU_append]
  have huid : memB (resolvedUsers
      (buildIdentifierMap (activeMappings st.mappings sid)) ic
      (pre ++ r :: post)) uid = true := by
    apply memB_of_mem
    exact List.mem_filterMap.mpr
      ⟨r, List.mem_append_right _ (List.mem_cons_self r post), hres⟩
  rw [getU_clearUsers st.cache huid,
    getU_blocksOf_middle sid (buildIdentifierMap (activeMappings st.mappings
      sid)) ic fo.columns uid pre r post hres hpost, List.nil_append]

/-- Witness for C5 at the concrete full-replacement scenario of the spec:
user u1 starts with three cached days; the snapshot carries only day 1 as D
and day 5 as OFF, and after the sync exactly those two entries remain. -/
theorem C5_full_replacement_witness :
    getUserEntries "S1" "u1"
      (sync_schedule_data
        ⟨[⟨"S1", "T1"⟩], [⟨"S1", true, "E01", none, "u1"⟩],
          [⟨"S1", "u1", ⟨2025, 11, 1⟩, "D", "08:00 - 16:00"⟩,
            ⟨"S1", "u1", ⟨2025, 11, 2⟩, "E", "16:00 - 00:00"⟩,
            ⟨"S1", "u1", ⟨2025, 11, 3⟩, "N", "00:00 - 08:00"⟩], [], 0⟩
        (fun _ => FetchOutcome.ok ⟨true, none, some ⟨true,
          [[("員工", some "E01"), ("2025-11-01", some "D"),
            ("2025-11-05", some "OFF")]],
          ["員工", "2025-11-01", "2025-11-05"]⟩⟩)
        "S1" "manual" none true).1.cache =
      [⟨"S1", "u1", ⟨2025, 11, 1⟩, "D", "08:00 - 16:00"⟩,
        ⟨"S1", "u1", ⟨2025, 11, 5⟩, "OFF", "--"⟩] :=
  ((C5_full_replacement
    ⟨[⟨"S1", "T1"⟩], [⟨"S1", true, "E01", none, "u1"⟩],
      [⟨"S1", "u1", ⟨2025, 11, 1⟩, "D", "08:00 - 16:00"⟩,
        ⟨"S1", "u1", ⟨2025, 11, 2⟩, "E", "16:00 - 00:00"⟩,
        ⟨"S1", "u1", ⟨2025, 11, 3⟩, "N", "00:00 - 08:00"⟩], [], 0⟩
    (fun _ => FetchOutcome.ok ⟨true, none, some ⟨true,
      [[("員工", some "E01"), ("2025-11-01", some "D"),
        ("2025-11-05", some "OFF")]],
      ["員工", "2025-11-01", "2025-11-05"]⟩⟩)
    "S1" "manual" none true ⟨"S1", "T1"⟩
    ⟨true, none, some ⟨true,
      [[("員工", some "E01"), ("2025-11-01", some "D"),
        ("2025-11-05", some "OFF")]],
      ["員工", "2025-11-01", "2025-11-05"]⟩⟩
    ⟨true,
      [[("員工", some "E01"), ("2025-11-01", some "D"),
        ("2025-11-05", some "OFF")]],
      ["員工", "2025-11-01", "2025-11-05"]⟩
    "員工" "u1" [] []
    [("員工", some "E01"), ("2025-11-01", some "D"),
      ("2025-11-05", some "OFF")]
    rfl (Or.inl rfl) rfl rfl rfl rfl rfl rfl rfl rfl).2).trans rfl

/-- C8: a snapshot with three body rows of which exactly one identifier is
unresolvable (the other two resolving to distinct users, each with at least
one storable cell) still syncs successfully, with users_synced = 2 and
rows_synced positive — the unresolved row is skipped, never failing the
sync. -/
theorem C8_partial_failure_tolerance (st : SyncState)
    (oracle : Nat → FetchOutcome) (sid ty : String) (tb : Option String)
    (force : Bool) (sdef : ScheduleDefinition) (sd : SheetsData)
    (fo : FinalOutput) (ic : String) (r1 r2 r3 : Row) (u1 u2 : String)
    (hdef : st.defs.find? (fun d => d.scheduleDefID == sid) = some sdef)
    (hwake : force = true ∨ shouldSync st.ledger sid 10 st.now = true)
    (hor : oracle 0 = FetchOutcome.ok sd) (hsu : sd.success = true)
    (hfo : sd.final_output = some fo) (hfosu : fo.success = true)
    (hic : findIdentifierColumn fo.columns = some ic)
    (hdata : fo.data = [r1, r2, r3]) (hne : u1 ≠ u2)
    (hcases :
      (resolveRowUser (buildIdentifierMap (activeMappings st.mappings sid))
          ic r1 = some u1 ∧
        resolveRowUser (buildIdentifierMap (activeMappings st.mappings sid))
          ic r2 = some u2 ∧
        resolveRowUser (buildIdentifierMap (activeMappings st.mappings sid))
          ic r3 = none ∧
        1 ≤ rowCount sid u1 ic fo.columns r1) ∨
      (resolveRowUser (buildIdentifierMap (activeMappings st.mappings sid))
          ic r1 = some u1 ∧
        resolveRowUser (buildIdentifierMap (activeMappings st.mappings sid))
          ic r2 = none ∧
        resolveRowUser (buildIdentifierMap (activeMappings st.mappings sid))
          ic r3 = some u2 ∧
        1 ≤ rowCount sid u1 ic fo.columns r1) ∨
      (resolveRowUser (buildIdentifierMap (activeMappings st.mappings sid))
          ic r1 = none ∧
        resolveRowUser (buildIdentifierMap (activeMappings st.mappings sid))
          ic r2 = some u1 ∧
        resolveRowUser (buildIdentifierMap (activeMappings st.mappings sid))
          ic r3 = some u2 ∧
        1 ≤ rowCount sid u1 ic fo.columns r2)) :
    (sync_schedule_data st oracle sid ty tb force).2.success = true ∧
    (sync_schedule_data st oracle sid ty tb force).2.users_synced = some 2 ∧
    ∃ n, (sync_schedule_data st oracle sid ty tb force).2.rows_synced =
      some n ∧ 0 < n := by
  have hfr := fetch_first_success hor hsu
  have hfs : (fetch_with_retry oracle).1.success = true := by
    rw [hfr]
    exact hsu
  have hdne : fo.data ≠ [] := by
    rw [hdata]
    simp
  have hcne : fo.columns ≠ [] := by
    intro hnil
    rw [hnil] at hic
    rw [show findIdentifierColumn ([] : List String) = none from rfl] at hic
    exact Option.noConfusion hic
  have hst := store_main st.cache sid st.mappings (fetch_with_retry oracle).1
    fo ic (by rw [hfr]; exact hfo) hfosu hdne hcne hic
  rw [sync_store_success st oracle sid ty tb force sdef hdef hwake hfs, hst,
    hdata]
  refine ⟨rfl, ?_, ?_⟩
  · show some (List.foldl (processRow sid (buildIdentifierMap
      (activeMappings st.mappings sid)) ic fo.columns) ⟨st.cache, 0, []⟩
      [r1, r2, r3]).users.length = some 2
    rw [loop_users]
    rcases hcases with ⟨e1, e2, e3, _⟩ | ⟨e1, e2, e3, _⟩ | ⟨e1, e2, e3, _⟩
    · rw [resolvedUsers_cons_some e1, resolvedUsers_cons_some e2,
        resolvedUsers_cons_none e3, resolvedUsers_nil]
      dsimp only
      rw [List.foldl_cons, List.foldl_cons, List.foldl_nil,
        show addUser [] u1 = [u1] from rfl, addUser_singleton_ne hne]
      rfl
    · rw [resolvedUsers_cons_some e1, resolvedUsers_cons_none e2,
        resolvedUsers_cons_some e3, resolvedUsers_nil]
      dsimp only
      rw [List.foldl_cons, List.foldl_cons, List.foldl_nil,
        show addUser [] u1 = [u1] from rfl, addUser_singleton_ne hne]
      rfl
    · rw [resolvedUsers_cons_none e1, resolvedUsers_cons_some e2,
        resolvedUsers_cons_some e3, resolvedUsers_nil]
      dsimp only
      rw [List.foldl_cons, List.foldl_cons, List.foldl_nil,
        show addUser [] u1 = [u1] from rfl, addUser_singleton_ne hne]
      rfl
  · refine ⟨(List.foldl (processRow sid (buildIdentifierMap
      (activeMappings st.mappings sid)) ic fo.columns) ⟨st.cache, 0, []⟩
      [r1, r2, r3]).rows, rfl, ?_⟩
    rw [loop_count]
    dsimp only
    rcases hcases with ⟨e1, e2, e3, hcnt⟩ | ⟨e1, e2, e3, hcnt⟩ |
      ⟨e1, e2, e3, hcnt⟩
    · rw [countsOf_cons_some e1, countsOf_cons_some e2, countsOf_cons_none e3,
        countsOf_nil]
      omega
    · rw [countsOf_cons_some e1, countsOf_cons_none e2, countsOf_cons_some e3,
        countsOf_nil]
      omega
    · rw [countsOf_cons_none e1, countsOf_cons_some e2, countsOf_cons_some e3,
        countsOf_nil]
      omega

/-- Witness for C8: three rows, the middle identifier unresolvable. -/
theorem C8_partial_failure_tolerance_witness :
    (sync_schedule_data
      ⟨[⟨"S1", "T1"⟩],
        [⟨"S1", true, "E01", none, "u1"⟩, ⟨"S1", true, "E02", none, "u2"⟩],
        [], [], 0⟩
      (fun _ => FetchOutcome.ok ⟨true, none, some ⟨true,
        [[("員工", some "E01"), ("2025-11-01", some "D")],
          [("員工", some "ZZZ"), ("2025-11-01", some "E")],
          [("員工", some "E02"), ("2025-11-01", some "N")]],
        ["員工", "2025-11-01"]⟩⟩)
      "S1" "manual" none true).2.users_synced = some 2 :=
  (C8_partial_failure_tolerance
    ⟨[⟨"S1", "T1"⟩],
      [⟨"S1", true, "E01", none, "u1"⟩, ⟨"S1", true, "E02", none, "u2"⟩],
      [], [], 0⟩
    (fun _ => FetchOutcome.ok ⟨true, none, some ⟨true,
      [[("員工", some "E01"), ("2025-11-01", some "D")],
        [("員工", some "ZZZ"), ("2025-11-01", some "E")],
        [("員工", some "E02"), ("2025-11-01", some "N")]],
      ["員工", "2025-11-01"]⟩⟩)
    "S1" "manual" none true ⟨"S1", "T1"⟩
    ⟨true, none, some ⟨true,
      [[("員工", some "E01"), ("2025-11-01", some "D")],
        [("員工", some "ZZZ"), ("2025-11-01", some "E")],
        [("員工", some "E02"), ("2025-11-01", some "N")]],
      ["員工", "2025-11-01"]⟩⟩
    ⟨true,
      [[("員工", some "E01"), ("2025-11-01", some "D")],
        [("員工", some "ZZZ"), ("2025-11-01", some "E")],
        [("員工", some "E02"), ("2025-11-01", some "N")]],
      ["員工", "2025-11-01"]⟩
    "員工"
    [("員工", some "E01"), ("2025-11-01", some "D")]
    [("員工", some "ZZZ"), ("2025-11-01", some "E")]
    [("員工", some "E02"), ("2025-11-01", some "N")]
    "u1" "u2" rfl (Or.inl rfl) rfl rfl rfl rfl rfl rfl (by decide)
    (Or.inr (Or.inl ⟨rfl, rfl, rfl, by decide⟩))).2.1

end TeamPulse
